import Mathlib

/-!
Verification of the SealVault persistence-identity and backup-integrity core.

This file is a shallow embedding, in Lean 4, of the backup metadata module
(`src/core/src/backup/metadata.rs`) and of the content-addressed entity
creation paths (`src/core/src/db/models/dapp.rs`,
`src/core/src/db/models/account_picture.rs`).

Conventions of the embedding:
- Rust `String`/`&str` values are `List Char`; byte buffers produced by JSON
  serialization are also modelled as `List Char` (UTF-8 encoding of a char
  sequence is injective, so byte-identity coincides with char-list identity).
- Rust `i64` is `Int`; where overflow behaviour of parsing matters the
  64-bit bounds are made explicit.
- Fallible Rust functions returning `Result<T, Error>` become
  `Except Error T`.
- Types whose definitions live outside the four source files
  (`OperatingSystem`, `BackupScheme`, `DeviceIdentifier`, `DeviceName`, the
  timestamp utilities and the deterministic-id deriver) are modelled from
  the specification; each such definition carries a doc comment saying so.

The file is organised as: all definitions first, then all theorems.
-/

namespace SealVault

/-- Decidable equality for `Except`, so that concrete runs of the fallible
operations can be checked by `decide`. -/
instance {ε α : Type} [DecidableEq ε] [DecidableEq α] :
    DecidableEq (Except ε α) := fun a b =>
  match a, b with
  | .ok x, .ok y =>
    if h : x = y then isTrue (by rw [h])
    else isFalse (fun hc => h (Except.ok.inj hc))
  | .error x, .error y =>
    if h : x = y then isTrue (by rw [h])
    else isFalse (fun hc => h (Except.error.inj hc))
  | .ok _, .error _ => isFalse (fun hc => Except.noConfusion hc)
  | .error _, .ok _ => isFalse (fun hc => Except.noConfusion hc)

/-! ## Definitions: decimal digit rendering and parsing

Rust renders `i64` values with the standard `Display` implementation
(decimal, optional leading minus) and parses them with `i64::from_str`
(optional sign, decimal digits, 64-bit range check).  We model both ends. -/

/-- The decimal digit character for `d` (meaningful for `d < 10`). -/
def digitChar (d : Nat) : Char := Char.ofNat (48 + d)

/-- Numeric value of a decimal digit character. -/
def digitVal (c : Char) : Nat := c.toNat - 48

/-- Decimal rendering of a natural number, most significant digit first,
mirroring Rust's `Display` for unsigned values (`0` renders as `"0"`). -/
def natDigits (n : Nat) : List Char :=
  if n = 0 then ['0'] else ((Nat.digits 10 n).map digitChar).reverse

/-- Accumulate a digit string into a natural number (no sign, no bound). -/
def digitsToNat (cs : List Char) : Nat :=
  cs.foldl (fun a c => 10 * a + digitVal c) 0

/-- Decimal rendering of a signed integer, mirroring Rust `i64` `Display`. -/
def intRepr (i : Int) : List Char :=
  if i < 0 then '-' :: natDigits (-i).toNat else natDigits i.toNat

/-- Sign-aware reading of a decimal rendering (left inverse of `intRepr`). -/
def intReprRead : List Char → Int
  | [] => 0
  | c :: cs => if c = '-' then -(digitsToNat cs : Int) else digitsToNat (c :: cs)

/-- Largest `i64` value, `2 ^ 63 - 1`. -/
def i64Max : Nat := 9223372036854775807

/-- Reading of an unsigned decimal digit string: requires at least one
character and every character a decimal digit. -/
def readDigits (cs : List Char) : Option Nat :=
  if cs.isEmpty then none
  else if cs.all Char.isDigit then some (digitsToNat cs) else none

/-- Model of Rust `i64::from_str`: optional `+`/`-` sign, one or more
decimal digits, and a 64-bit two's-complement range check. -/
def parseI64 : List Char → Option Int
  | [] => none
  | c :: rest =>
    if c = '+' then
      (readDigits rest).bind fun n =>
        if n ≤ i64Max then some ((n : Int)) else none
    else if c = '-' then
      (readDigits rest).bind fun n =>
        if n ≤ i64Max + 1 then some (-(n : Int)) else none
    else
      (readDigits (c :: rest)).bind fun n =>
        if n ≤ i64Max then some ((n : Int)) else none

/-! ## Definitions: error type and backup version

From `src/core/src/backup/metadata.rs`.  The repository's `Error` enum has a
`Fatal` (non-retriable) and a `Retriable` variant, each carrying a message. -/

/-- The two failure kinds of the core: non-retriable (`Fatal`) and
`Retriable`, mirroring the repository's `Error` enum. -/
inductive Error : Type
  | Fatal (error : String)
  | Retriable (error : String)
deriving DecidableEq, Repr

/-- `BackupVersion(i64)`: newtype over a database integer
(`src/core/src/backup/metadata.rs`, lines 29-47). -/
structure BackupVersion : Type where
  val : Int
deriving DecidableEq, Repr

/-- `impl TryFrom<i64> for BackupVersion` (metadata.rs lines 49-62): rejects
negative values with a `Fatal` error, otherwise wraps the value. -/
def BackupVersion.try_from (value : Int) : Except Error BackupVersion :=
  if value < 0 then
    .error (.Fatal "Negative backup version")
  else
    .ok ⟨value⟩

/-- `impl FromStr for BackupVersion` (metadata.rs lines 64-73): parses the
string as an `i64`, mapping a parse failure to a `Retriable` error, then
delegates to `TryFrom<i64>`.  The Rust message interpolates the integer
parse error; the model uses a fixed representative message. -/
def BackupVersion.from_str (s : List Char) : Except Error BackupVersion :=
  match parseI64 s with
  | none =>
    .error (.Retriable "Failed to parse str to backup version with error")
  | some value => BackupVersion.try_from value

/-- Structured deserialization of `BackupVersion`: the source declares
`#[serde(try_from = "i64")]` (metadata.rs line 44), so every serde
deserialization routes the raw integer through `TryFrom<i64>`. -/
def BackupVersion.deserialize (value : Int) : Except Error BackupVersion :=
  BackupVersion.try_from value

/-! ## Definitions: collaborator types modelled from the spec -/

/-- Modelled from the spec: `BackupScheme` (defined in
`src/core/src/backup/backup_scheme.rs`, not under `src/`) is the tag naming
the backup protocol version; the spec names a single currently-supported
value whose canonical string form is `v1`. -/
inductive BackupScheme : Type
  | V1
deriving DecidableEq, Repr

/-- Canonical string form of a `BackupScheme` (its Rust `Display`). -/
def BackupScheme.display : BackupScheme → List Char
  | .V1 => ['v', '1']

/-- Modelled from the spec: `OperatingSystem` (defined in
`src/core/src/device.rs`, not under `src/`) is the closed enumeration of
operating-system tags; the spec's scenarios name the `ios` tag.  Its
`Default` instance is the host's detected platform. -/
inductive OperatingSystem : Type
  | Ios
deriving DecidableEq, Repr

/-- Canonical string form of an `OperatingSystem` tag (its Rust `Display`). -/
def OperatingSystem.display : OperatingSystem → List Char
  | .Ios => ['i', 'o', 's']

/-- Modelled from the spec: `OperatingSystem`'s `FromStr` recognises the
canonical tags and fails non-retriably on an unrecognised tag ("OS tag
unrecognized" is listed as a non-retriable parse failure). -/
def OperatingSystem.from_str (s : List Char) : Except Error OperatingSystem :=
  if s = ['i', 'o', 's'] then .ok .Ios
  else .error (.Fatal "Unrecognized operating system")

/-- Modelled from the spec: the host's detected platform used for
`Default::default()`. -/
def OperatingSystem.defaultOs : OperatingSystem := .Ios

/-- Modelled from the spec: `DeviceIdentifier` (defined in
`src/core/src/device.rs`, not under `src/`) wraps the device identifier
string; its `Display` prints the wrapped string. -/
structure DeviceIdentifier : Type where
  chars : List Char
deriving DecidableEq, Repr

/-- Modelled from the spec: `DeviceIdentifier`'s `FromStr` wraps the token
captured from a backup filename (the spec's scenario parses device token
`dev123` successfully). -/
def DeviceIdentifier.from_str (s : List Char) : Except Error DeviceIdentifier :=
  .ok ⟨s⟩

/-- Modelled from the spec: `DeviceName` (defined in
`src/core/src/device.rs`, not under `src/`) wraps the device display-name
string. -/
structure DeviceName : Type where
  chars : List Char
deriving DecidableEq, Repr

/-! ## Definitions: backup metadata record -/

/-- `BackupMetadata` (metadata.rs lines 77-92): the plaintext descriptor
shipped alongside an encrypted backup. -/
structure BackupMetadata : Type where
  backup_scheme : BackupScheme
  backup_version : BackupVersion
  timestamp : Int
  device_id : DeviceIdentifier
  device_name : DeviceName
  operating_system : OperatingSystem
  kdf_nonce : List Char
deriving DecidableEq, Repr

/-! ## Definitions: canonical JSON serialization

`BackupMetadata::canonical_json` (metadata.rs lines 107-115) serializes the
record with `serde_json` using `olpc_cjson::CanonicalFormatter`: object keys
are emitted in lexicographic byte order with no whitespace, strings use
serde_json's standard escaping (`\"`, `\\`, short escapes for BS/TAB/LF/FF/CR
and `\u00XX` for the remaining control characters), and `i64` fields are
written in plain decimal. -/

/-- Opening brace character (0x7B). -/
def lbrace : Char := Char.ofNat 123

/-- Closing brace character (0x7D). -/
def rbrace : Char := Char.ofNat 125

/-- Lowercase hex digit character for `d < 16`. -/
def hexChar (d : Nat) : Char :=
  if d < 10 then Char.ofNat (48 + d) else Char.ofNat (87 + d)

/-- Numeric value of a lowercase hex digit character. -/
def hexVal (c : Char) : Nat :=
  if c.toNat < 58 then c.toNat - 48 else c.toNat - 87

/-- serde_json's escape of one character inside a JSON string. -/
def escapeChar (c : Char) : List Char :=
  if c = '"' then ['\\', '"']
  else if c = '\\' then ['\\', '\\']
  else if c = Char.ofNat 8 then ['\\', 'b']
  else if c = Char.ofNat 9 then ['\\', 't']
  else if c = Char.ofNat 10 then ['\\', 'n']
  else if c = Char.ofNat 12 then ['\\', 'f']
  else if c = Char.ofNat 13 then ['\\', 'r']
  else if c.toNat < 32 then
    ['\\', 'u', '0', '0', hexChar (c.toNat / 16), hexChar (c.toNat % 16)]
  else [c]

/-- serde_json's escaping of a whole string body. -/
def escapeStr : List Char → List Char
  | [] => []
  | c :: rest => escapeChar c ++ escapeStr rest

/-- Scan a JSON string body for its closing quote, treating a backslash
and its following character as an opaque unit: given the characters after
the opening quote, returns the still-escaped body and the remainder after
the closing quote. -/
def takeEscaped : List Char → Option (List Char × List Char)
  | [] => none
  | c :: rest =>
    if c = '"' then some ([], rest)
    else if c = '\\' then
      match rest with
      | [] => none
      | d :: rest2 =>
        (takeEscaped rest2).map (fun p => ('\\' :: d :: p.1, p.2))
    else (takeEscaped rest).map (fun p => (c :: p.1, p.2))

/-- Undo `escapeStr`'s escapes on a complete escaped string body. -/
def unescapeStr : List Char → Option (List Char)
  | [] => some []
  | c :: rest =>
    if c = '\\' then
      match rest with
      | [] => none
      | d :: rest2 =>
        if d = 'u' then
          match rest2 with
          | a :: b :: h1 :: h2 :: rest3 =>
            if a = '0' ∧ b = '0' then
              (unescapeStr rest3).map
                (fun r => Char.ofNat (16 * hexVal h1 + hexVal h2) :: r)
            else none
          | _ => none
        else if d = '"' then (unescapeStr rest2).map (fun r => '"' :: r)
        else if d = '\\' then (unescapeStr rest2).map (fun r => '\\' :: r)
        else if d = 'b' then (unescapeStr rest2).map (fun r => Char.ofNat 8 :: r)
        else if d = 't' then (unescapeStr rest2).map (fun r => Char.ofNat 9 :: r)
        else if d = 'n' then (unescapeStr rest2).map (fun r => Char.ofNat 10 :: r)
        else if d = 'f' then (unescapeStr rest2).map (fun r => Char.ofNat 12 :: r)
        else if d = 'r' then (unescapeStr rest2).map (fun r => Char.ofNat 13 :: r)
        else none
    else (unescapeStr rest).map (fun r => c :: r)

/-- A JSON string literal: quote, escaped body, quote. -/
def jsonStr (s : List Char) : List Char := '"' :: escapeStr s ++ ['"']

/-- A JSON object key plus the `:` separator (keys here are plain ASCII
identifiers needing no escapes). -/
def jsonKey (k : List Char) : List Char := '"' :: k ++ ['"', ':']

/-- The canonical JSON bytes of a `BackupMetadata`: keys in lexicographic
byte order (backup_scheme, backup_version, device_id, device_name,
kdf_nonce, operating_system, timestamp), no whitespace. -/
def canonicalJsonChars (m : BackupMetadata) : List Char :=
  lbrace ::
    (jsonKey (['b','a','c','k','u','p','_','s','c','h','e','m','e'])
      ++ jsonStr m.backup_scheme.display
    ++ ',' :: jsonKey (['b','a','c','k','u','p','_','v','e','r','s','i','o','n'])
      ++ intRepr m.backup_version.val
    ++ ',' :: jsonKey (['d','e','v','i','c','e','_','i','d'])
      ++ jsonStr m.device_id.chars
    ++ ',' :: jsonKey (['d','e','v','i','c','e','_','n','a','m','e'])
      ++ jsonStr m.device_name.chars
    ++ ',' :: jsonKey (['k','d','f','_','n','o','n','c','e'])
      ++ jsonStr m.kdf_nonce
    ++ ',' :: jsonKey (['o','p','e','r','a','t','i','n','g','_','s','y','s','t','e','m'])
      ++ jsonStr m.operating_system.display
    ++ ',' :: jsonKey (['t','i','m','e','s','t','a','m','p'])
      ++ intRepr m.timestamp
    ++ [rbrace])

/-- `BackupMetadata::canonical_json` (metadata.rs lines 107-115): the Rust
function maps an internal serde error to `Error::Fatal`, but serializing
this struct into an in-memory buffer cannot fail, so the model always
succeeds with the canonical bytes. -/
def BackupMetadata.canonical_json (m : BackupMetadata) :
    Except Error (List Char) :=
  .ok (canonicalJsonChars m)

/-! ## Definitions: backup filename codec

`get_backup_file_name` (metadata.rs lines 151-162) formats
`sealvault_backup_{scheme}_{os}_{timestamp}_{device_id}_{version}.zip`
with each component's `Display`.  `MetadataFromFileName::from_str`
(metadata.rs lines 126-149) matches `BACKUP_FILE_NAME_REGEX`
(metadata.rs lines 23-26):

  `^sealvault_backup_([A-Za-z0-9-]+)_([A-Za-z0-9-]+)_(\d+)_([A-Za-z0-9-]+)_(\d+)\.zip$`

and parses the captured groups.  The regex crate compiles `\d` in its
default Unicode mode, where it denotes `\p{Nd}` — every Unicode decimal
digit, not only ASCII `0-9`; the timestamp and version groups therefore
use the Unicode `Nd` class below.  Since none of the capture-group
character classes admits `_` or `.` (neither is alphanumeric, a hyphen,
nor in `Nd`), an anchored match is equivalent to: literal prefix, literal
`.zip` suffix, and a middle that splits on `_` into exactly five nonempty
class-valid groups; the model implements that equivalent structural
parse. -/

/-- The literal filename prefix `sealvault_backup_`. -/
def filePrefixChars : List Char :=
  ['s','e','a','l','v','a','u','l','t','_','b','a','c','k','u','p','_']

/-- The literal filename suffix `.zip`. -/
def fileSuffixChars : List Char := ['.', 'z', 'i', 'p']

/-- Character class `[A-Za-z0-9-]` of the scheme/os/device_id groups. -/
def isFieldChar (c : Char) : Bool := c.isAlphanum || c = '-'

/-- The code-point ranges of the Unicode general category `Nd` (decimal
digit), Unicode 15.1 — the character set the regex crate's Unicode-mode
`\d` matches. -/
def ndRanges : List (Nat × Nat) :=
  [(0x0030, 0x0039), (0x0660, 0x0669), (0x06F0, 0x06F9), (0x07C0, 0x07C9),
   (0x0966, 0x096F), (0x09E6, 0x09EF), (0x0A66, 0x0A6F), (0x0AE6, 0x0AEF),
   (0x0B66, 0x0B6F), (0x0BE6, 0x0BEF), (0x0C66, 0x0C6F), (0x0CE6, 0x0CEF),
   (0x0D66, 0x0D6F), (0x0DE6, 0x0DEF), (0x0E50, 0x0E59), (0x0ED0, 0x0ED9),
   (0x0F20, 0x0F29), (0x1040, 0x1049), (0x1090, 0x1099), (0x17E0, 0x17E9),
   (0x1810, 0x1819), (0x1946, 0x194F), (0x19D0, 0x19D9), (0x1A80, 0x1A89),
   (0x1A90, 0x1A99), (0x1B50, 0x1B59), (0x1BB0, 0x1BB9), (0x1C40, 0x1C49),
   (0x1C50, 0x1C59), (0xA620, 0xA629), (0xA8D0, 0xA8D9), (0xA900, 0xA909),
   (0xA9D0, 0xA9D9), (0xA9F0, 0xA9F9), (0xAA50, 0xAA59), (0xABF0, 0xABF9),
   (0xFF10, 0xFF19), (0x104A0, 0x104A9), (0x10D30, 0x10D39),
   (0x11066, 0x1106F), (0x110F0, 0x110F9), (0x11136, 0x1113F),
   (0x111D0, 0x111D9), (0x112F0, 0x112F9), (0x11450, 0x11459),
   (0x114D0, 0x114D9), (0x11650, 0x11659), (0x116C0, 0x116C9),
   (0x11730, 0x11739), (0x118E0, 0x118E9), (0x11950, 0x11959),
   (0x11C50, 0x11C59), (0x11D50, 0x11D59), (0x11DA0, 0x11DA9),
   (0x11F50, 0x11F59), (0x16A60, 0x16A69), (0x16AC0, 0x16AC9),
   (0x16B50, 0x16B59), (0x1D7CE, 0x1D7FF), (0x1E140, 0x1E149),
   (0x1E2F0, 0x1E2F9), (0x1E4F0, 0x1E4F9), (0x1E950, 0x1E959),
   (0x1FBF0, 0x1FBF9)]

/-- The regex crate's Unicode-mode `\d` (`\p{Nd}`): membership in the `Nd`
ranges.  ASCII `0-9` is its first range; Arabic-Indic digits and the other
scripts' decimal digits are likewise included, as in the program's
`BACKUP_FILE_NAME_REGEX`. -/
def isNdDigit (c : Char) : Bool :=
  ndRanges.any (fun r => r.1 ≤ c.toNat && c.toNat ≤ r.2)

/-- Strip a literal from the front of a string: `some rest` when
`s = lit ++ rest`, else `none`. -/
def dropLit : List Char → List Char → Option (List Char)
  | [], s => some s
  | _ :: _, [] => none
  | l :: ls, c :: cs => if c = l then dropLit ls cs else none

/-- Strip a literal from the end of a string: `some front` when
`s = front ++ lit`, else `none`. -/
def dropSuffixLit (lit s : List Char) : Option (List Char) :=
  (dropLit lit.reverse s.reverse).map List.reverse

/-- Prepend a character to the first part of a split result. -/
def consHead (c : Char) : List (List Char) → List (List Char)
  | [] => [[c]]
  | g :: gs => (c :: g) :: gs

/-- Split a string on a separator character; parts never contain the
separator and `n` separators yield `n + 1` parts. -/
def splitSep (sep : Char) : List Char → List (List Char)
  | [] => [[]]
  | c :: rest =>
    if c = sep then [] :: splitSep sep rest
    else consHead c (splitSep sep rest)

/-- A capture group is nonempty with every character in the class. -/
def groupOk (cls : Char → Bool) (g : List Char) : Bool :=
  !g.isEmpty && g.all cls

/-- Model of an anchored `BACKUP_FILE_NAME_REGEX` match: returns the five
capture groups (scheme, os, timestamp, device_id, version) or `none`. -/
def matchBackupFileName (s : List Char) :
    Option (List Char × List Char × List Char × List Char × List Char) :=
  match dropLit filePrefixChars s with
  | none => none
  | some rest =>
    match dropSuffixLit fileSuffixChars rest with
    | none => none
    | some mid =>
      match splitSep '_' mid with
      | [scheme, os, ts, dev, ver] =>
        if groupOk isFieldChar scheme && groupOk isFieldChar os
            && groupOk isNdDigit ts && groupOk isFieldChar dev
            && groupOk isNdDigit ver then
          some (scheme, os, ts, dev, ver)
        else none
      | _ => none

/-- `parse_field_from_backup_file_name` at type `i64` (metadata.rs lines
164-177): parses the capture as an `i64` (`i64::from_str` accepts only
ASCII digits, so a non-ASCII `Nd` digit that passed the regex fails here,
as does an out-of-range value), converting the parse error via
`From<ParseIntError> for Error`.  Modelled from the spec: that conversion
(not under `src/`) yields a non-retriable error ("timestamp not decimal"
is listed among the non-retriable failures). -/
def parseI64Field (s : List Char) : Except Error Int :=
  match parseI64 s with
  | none => .error (.Fatal "Failed to parse integer field in backup file name")
  | some v => .ok v

/-- `MetadataFromFileName` (metadata.rs lines 118-124): the fields carried
by a backup filename (scheme is validated but not kept). -/
structure MetadataFromFileName : Type where
  timestamp : Int
  os : OperatingSystem
  device_id : DeviceIdentifier
  backup_version : BackupVersion
deriving DecidableEq, Repr

/-- `impl FromStr for MetadataFromFileName` (metadata.rs lines 126-149):
match the regex (a failed match is `Error::Fatal`), then parse the
timestamp, os, device_id and version captures in that order. -/
def MetadataFromFileName.from_str (file_name : List Char) :
    Except Error MetadataFromFileName :=
  match matchBackupFileName file_name with
  | none => .error (.Fatal "Invalid backup file name format")
  | some (_scheme, os, ts, dev, ver) => do
    let timestamp ← parseI64Field ts
    let os ← OperatingSystem.from_str os
    let device_id ← DeviceIdentifier.from_str dev
    let backup_version ← BackupVersion.from_str ver
    .ok ⟨timestamp, os, device_id, backup_version⟩

/-- `get_backup_file_name` (metadata.rs lines 151-162):
`format!("sealvault_backup_{}_{}_{}_{}_{}.zip", scheme, os, timestamp,
device_id, version)` with each argument's `Display`. -/
def get_backup_file_name (backup_scheme : BackupScheme) (os : OperatingSystem)
    (timestamp : Int) (device_id : DeviceIdentifier)
    (backup_version : BackupVersion) : List Char :=
  filePrefixChars ++ backup_scheme.display
    ++ '_' :: os.display
    ++ '_' :: intRepr timestamp
    ++ '_' :: device_id.chars
    ++ '_' :: intRepr backup_version.val
    ++ fileSuffixChars

/-- `BackupMetadata::backup_file_name` (metadata.rs lines 95-103). -/
def BackupMetadata.backup_file_name (m : BackupMetadata) : List Char :=
  get_backup_file_name m.backup_scheme m.operating_system m.timestamp
    m.device_id m.backup_version

/-- The validity envelope of a `BackupMetadata` as produced by the
repository: timestamp and version are `i64` values (the version
non-negative by the `BackupVersion` invariant, the timestamp a non-negative
unix time), and the device identifier is a nonempty token over
`[A-Za-z0-9-]`. -/
def BackupMetadata.valid (m : BackupMetadata) : Prop :=
  0 ≤ m.timestamp ∧ m.timestamp ≤ (i64Max : Int) ∧
    0 ≤ m.backup_version.val ∧ m.backup_version.val ≤ (i64Max : Int) ∧
    m.device_id.chars ≠ [] ∧ (∀ c ∈ m.device_id.chars, isFieldChar c = true)

instance (m : BackupMetadata) : Decidable m.valid := by
  unfold BackupMetadata.valid
  infer_instance

/-! ## Definitions: canonical JSON decoder -/

/-- Split at the first occurrence of a character: `some (before, after)`,
the separator consumed. -/
def splitAtChar (c : Char) : List Char → Option (List Char × List Char)
  | [] => none
  | x :: xs =>
    if x = c then some ([], xs)
    else (splitAtChar c xs).map (fun p => (x :: p.1, p.2))

/-- Canonical-JSON header from the opening brace through the
`"backup_version":` key (the scheme field has its single canonical
value). -/
def cjHdr1 : List Char :=
  lbrace :: jsonKey (['b','a','c','k','u','p','_','s','c','h','e','m','e'])
    ++ jsonStr BackupScheme.V1.display
    ++ ',' :: jsonKey (['b','a','c','k','u','p','_','v','e','r','s','i','o','n'])

/-- Canonical-JSON fragment from after the version value's comma through
the opening quote of the `device_id` value. -/
def cjHdr2 : List Char :=
  jsonKey (['d','e','v','i','c','e','_','i','d']) ++ ['"']

/-- Canonical-JSON fragment between the `device_id` and `device_name`
values. -/
def cjHdr3 : List Char :=
  ',' :: jsonKey (['d','e','v','i','c','e','_','n','a','m','e']) ++ ['"']

/-- Canonical-JSON fragment between the `device_name` and `kdf_nonce`
values. -/
def cjHdr4 : List Char :=
  ',' :: jsonKey (['k','d','f','_','n','o','n','c','e']) ++ ['"']

/-- Canonical-JSON fragment between the `kdf_nonce` value and the
`timestamp` value (the operating-system field has its single canonical
value). -/
def cjHdr5 : List Char :=
  ',' :: jsonKey (['o','p','e','r','a','t','i','n','g','_','s','y','s','t','e','m'])
    ++ jsonStr OperatingSystem.Ios.display
    ++ ',' :: jsonKey (['t','i','m','e','s','t','a','m','p'])

/-- Structural decoder for the canonical JSON of a `BackupMetadata`:
recovers the five variable fields (version, device id, device name, KDF
nonce, timestamp).  Its existence as a left inverse of the encoder proves
the canonical serialization injective. -/
def decodeCanonical (s : List Char) :
    Option (Int × List Char × List Char × List Char × Int) :=
  match dropLit cjHdr1 s with
  | none => none
  | some r1 =>
  match splitAtChar ',' r1 with
  | none => none
  | some (ver, r2) =>
  match dropLit cjHdr2 r2 with
  | none => none
  | some r3 =>
  match takeEscaped r3 with
  | none => none
  | some (devEsc, r4) =>
  match unescapeStr devEsc with
  | none => none
  | some dev =>
  match dropLit cjHdr3 r4 with
  | none => none
  | some r5 =>
  match takeEscaped r5 with
  | none => none
  | some (namEsc, r6) =>
  match unescapeStr namEsc with
  | none => none
  | some nam =>
  match dropLit cjHdr4 r6 with
  | none => none
  | some r7 =>
  match takeEscaped r7 with
  | none => none
  | some (nonEsc, r8) =>
  match unescapeStr nonEsc with
  | none => none
  | some non =>
  match dropLit cjHdr5 r8 with
  | none => none
  | some r9 =>
  match splitAtChar rbrace r9 with
  | none => none
  | some (ts, _) => some (intReprRead ver, dev, nam, non, intReprRead ts)

/-! ## Definitions: last-backup-status resolver -/

/-- Number of days from 0000-03-01 in the proleptic Gregorian calendar
(civil-days algorithm), valid for dates on or after 1970-01-01. -/
def daysFromCivil (y m d : Nat) : Nat :=
  let yAdj := if m ≤ 2 then y - 1 else y
  let era := yAdj / 400
  let yoe := yAdj % 400
  let mp := if 2 < m then m - 3 else m + 9
  let doy := (153 * mp + 2) / 5 + d - 1
  let doe := yoe * 365 + yoe / 4 - yoe / 100 + doy
  era * 146097 + doe

/-- Modelled from the spec: `parse_rfc3339_timestamp` followed by
`.timestamp()` (`src/core/src/utils.rs`, not under `src/`) parses an
RFC3339 timestamp string and yields the unix time in seconds, failing with
an error on a malformed string.  The model accepts the canonical
`YYYY-MM-DDTHH:MM:SSZ` rendering for years from 1970 on. -/
def parse_rfc3339_timestamp (s : List Char) : Except Error Int :=
  match s with
  | [y1, y2, y3, y4, '-', mo1, mo2, '-', d1, d2, 'T',
     h1, h2, ':', mi1, mi2, ':', s1, s2, 'Z'] =>
    let digitsOk :=
      [y1, y2, y3, y4, mo1, mo2, d1, d2, h1, h2, mi1, mi2, s1, s2].all
        Char.isDigit
    let y := digitsToNat [y1, y2, y3, y4]
    let mo := digitsToNat [mo1, mo2]
    let d := digitsToNat [d1, d2]
    let h := digitsToNat [h1, h2]
    let mi := digitsToNat [mi1, mi2]
    let sec := digitsToNat [s1, s2]
    if digitsOk && (1970 ≤ y) && (1 ≤ mo) && (mo ≤ 12) && (1 ≤ d) && (d ≤ 31)
        && (h ≤ 23) && (mi ≤ 59) && (sec ≤ 59) then
      .ok (((daysFromCivil y mo d : Int) - 719468) * 86400
        + 3600 * (h : Int) + 60 * (mi : Int) + (sec : Int))
    else .error (.Fatal "Invalid RFC3339 timestamp")
  | _ => .error (.Fatal "Invalid RFC3339 timestamp")

/-- Modelled from the spec §6: the slice of the resources collaborator that
`last_uploaded_backup` consumes.  The two settings fetches are the results
observed inside the single deferred transaction; `is_uploaded` is the
backup-storage presence check. -/
structure Resources : Type where
  fetch_backup_timestamp : Except Error (Option (List Char))
  fetch_backup_version : Except Error BackupVersion
  device_id : DeviceIdentifier
  is_uploaded : List Char → Bool

/-- `last_uploaded_backup` (metadata.rs lines 181-217): fetch the recorded
backup version and timestamp inside one deferred transaction; absent
timestamp means no backup; otherwise parse the timestamp, derive the
expected filename from the default scheme and OS, the device id and the
fetched version/timestamp, and report the parsed time exactly when storage
says that filename is uploaded. -/
def last_uploaded_backup (resources : Resources) :
    Except Error (Option Int) := do
  let pair ← (do
    let timestamp ← resources.fetch_backup_timestamp
    let backup_version ← resources.fetch_backup_version
    pure (backup_version, timestamp))
  let backup_version := pair.1
  match pair.2 with
  | none => pure none
  | some datestamp => do
    let timestamp ← parse_rfc3339_timestamp datestamp
    let os : OperatingSystem := OperatingSystem.defaultOs
    let backup_file_name := get_backup_file_name BackupScheme.V1 os timestamp
      resources.device_id backup_version
    let is_up := resources.is_uploaded backup_file_name
    if is_up then pure (some timestamp) else pure none

/-! ## Definitions: deterministic ids and idempotent entity creation

From `src/core/src/db/models/dapp.rs` and
`src/core/src/db/models/account_picture.rs`.  The deterministic-id deriver
itself (`src/core/src/db/deterministic_id.rs`) is not under `src/`. -/

/-- The entity-namespace tags used by the two creation paths under `src/`
(the repository's closed `EntityName` enumeration has further cases for the
other entity kinds). -/
inductive EntityName : Type
  | Dapp
  | AccountPicture
deriving DecidableEq, Repr

/-- Modelled from the spec §4.1 and §3: a deterministic id is
`H(namespace_tag ‖ unique_key_1 ‖ …)` for a collision-resistant hash `H`;
identical inputs give identical ids and distinct inputs give distinct ids.
The model idealises collision resistance by using the injective pairing of
namespace and ordered keys itself as the identifier. -/
structure DeterministicId : Type where
  entity : EntityName
  keys : List (List Char)
deriving DecidableEq, Repr

/-- Modelled from the spec §4.1: `derive(namespace, unique_keys)`. -/
def deriveDeterministicId (entity : EntityName) (keys : List (List Char)) :
    DeterministicId :=
  ⟨entity, keys⟩

/-- `DappEntity` (dapp.rs lines 137-142): the insertable natural key of a
dapp. -/
structure DappEntity : Type where
  identifier : List Char
  url : List Char
deriving DecidableEq, Repr

/-- `DeriveDeterministicId for DappEntity` (dapp.rs lines 210-219):
namespace `Dapp`, unique columns `[identifier]`. -/
def DappEntity.deterministicId (e : DappEntity) : DeterministicId :=
  deriveDeterministicId .Dapp [e.identifier]

/-- A row of the `dapps` table as written by `create_if_not_exists`
(`updated_at` stays NULL on insert and is omitted). -/
structure DappRow : Type where
  deterministic_id : DeterministicId
  identifier : List Char
  url : List Char
  created_at : List Char
deriving DecidableEq, Repr

/-- `DappEntity::create_if_not_exists` (dapp.rs lines 186-207): derive the
id, insert the row with `on_conflict_do_nothing`, return the id.  SQLite's
conflict target here is the primary key `deterministic_id`: when a row with
that id exists the insert is silently skipped. -/
def DappEntity.create_if_not_exists (e : DappEntity) (created_at : List Char)
    (db : List DappRow) : DeterministicId × List DappRow :=
  let id := e.deterministicId
  if db.any (fun row => decide (row.deterministic_id = id)) then (id, db)
  else (id, db ++ [⟨id, e.identifier, e.url, created_at⟩])

/-- `AccountPictureEntity` (account_picture.rs lines 60-66): the insertable
natural key of an account picture (the image hash, a byte string modelled
as a char list). -/
structure AccountPictureEntity : Type where
  image_hash : List Char
deriving DecidableEq, Repr

/-- `DeriveDeterministicId for AccountPictureEntity` (account_picture.rs
lines 94-102): namespace `AccountPicture`, unique columns `[image_hash]`. -/
def AccountPictureEntity.deterministicId (e : AccountPictureEntity) :
    DeterministicId :=
  deriveDeterministicId .AccountPicture [e.image_hash]

/-- A row of the `profile_pictures` table as written by
`AccountPictureEntity::create`. -/
structure AccountPictureRow : Type where
  deterministic_id : DeterministicId
  image_hash : List Char
  image : List Char
  image_name : Option (List Char)
  created_at : List Char
deriving DecidableEq, Repr

/-- `AccountPictureEntity::create` (account_picture.rs lines 68-92): derive
the id and insert the row with a plain `insert_into(..).execute(..)` —
unlike the dapp path there is no `on_conflict_do_nothing`, so SQLite
surfaces a UNIQUE-constraint violation on the primary key
`deterministic_id` when a row with that id already exists (the error
reaches the caller through diesel's error conversion). -/
def AccountPictureEntity.create (e : AccountPictureEntity)
    (image : List Char) (image_name : Option (List Char))
    (created_at : List Char) (db : List AccountPictureRow) :
    Except Error (DeterministicId × List AccountPictureRow) :=
  let id := e.deterministicId
  if db.any (fun row => decide (row.deterministic_id = id)) then
    .error (.Fatal "UNIQUE constraint failed: profile_pictures.deterministic_id")
  else
    .ok (id, db ++ [⟨id, e.image_hash, image, image_name, created_at⟩])

/-! ## Theorems: digit utilities -/

theorem digitVal_digitChar {d : Nat} (h : d < 10) : digitVal (digitChar d) = d := by
  interval_cases d <;> rfl

theorem digitChar_isDigit {d : Nat} (h : d < 10) : (digitChar d).isDigit = true := by
  interval_cases d <;> rfl

theorem natDigits_ne_nil (n : Nat) : natDigits n ≠ [] := by
  unfold natDigits
  by_cases h : n = 0
  · simp [h]
  · simp [h, Nat.digits_ne_nil_iff_ne_zero.mpr h]

theorem natDigits_all_digit (n : Nat) : ∀ c ∈ natDigits n, c.isDigit = true := by
  intro c hc
  unfold natDigits at hc
  by_cases h : n = 0
  · simp [h] at hc
    simp [hc]
  · simp [h] at hc
    obtain ⟨d, hd, rfl⟩ := hc
    exact digitChar_isDigit (Nat.digits_lt_base (by norm_num) hd)

theorem not_mem_natDigits {c : Char} (hc : c.isDigit = false) (n : Nat) :
    c ∉ natDigits n := by
  intro hmem
  have := natDigits_all_digit n c hmem
  rw [hc] at this
  exact Bool.false_ne_true this

theorem foldr_digits_eq_ofDigits (L : List Nat) (h : ∀ d ∈ L, d < 10) :
    L.foldr (fun d a => 10 * a + digitVal (digitChar d)) 0 = Nat.ofDigits 10 L := by
  induction L with
  | nil => rfl
  | cons d L ih =>
    have hd : d < 10 := h d (List.mem_cons_self d L)
    have hL : ∀ x ∈ L, x < 10 := fun x hx => h x (List.mem_cons_of_mem d hx)
    simp only [List.foldr_cons, ih hL, Nat.ofDigits_cons, digitVal_digitChar hd]
    ring

theorem digitsToNat_natDigits (n : Nat) : digitsToNat (natDigits n) = n := by
  unfold natDigits digitsToNat
  by_cases h : n = 0
  · simp [h]
    rfl
  · simp only [h, if_false]
    rw [List.foldl_reverse]
    have : ((Nat.digits 10 n).map digitChar).foldr
        (fun c a => 10 * a + digitVal c) 0
        = (Nat.digits 10 n).foldr (fun d a => 10 * a + digitVal (digitChar d)) 0 := by
      rw [List.foldr_map]
    simpa [this, foldr_digits_eq_ofDigits (Nat.digits 10 n)
        (fun d hd => Nat.digits_lt_base (by norm_num) hd)]
      using Nat.ofDigits_digits 10 n

theorem natDigits_injective : Function.Injective natDigits := by
  intro a b h
  have := congrArg digitsToNat h
  simpa [digitsToNat_natDigits] using this

theorem minus_not_digit : ('-').isDigit = false := rfl

theorem natDigits_head_not_minus (n : Nat) :
    ¬ ∃ cs, natDigits n = '-' :: cs := by
  rintro ⟨cs, hcs⟩
  have : ('-') ∈ natDigits n := by
    rw [hcs]; exact List.mem_cons_self _ _
  exact not_mem_natDigits minus_not_digit n this

theorem intReprRead_intRepr (i : Int) : intReprRead (intRepr i) = i := by
  unfold intRepr
  by_cases h : i < 0
  · simp only [h, if_true, intReprRead, if_pos rfl, digitsToNat_natDigits]
    omega
  · simp only [h, if_false]
    obtain ⟨c, cs, hcs⟩ := List.exists_cons_of_ne_nil (natDigits_ne_nil i.toNat)
    have hcd : c.isDigit = true := by
      apply natDigits_all_digit i.toNat
      rw [hcs]; exact List.mem_cons_self _ _
    have hcm : c ≠ '-' := by
      intro hc
      rw [hc, minus_not_digit] at hcd
      exact Bool.false_ne_true hcd
    rw [hcs]
    simp only [intReprRead, if_neg hcm, ← hcs, digitsToNat_natDigits]
    omega

theorem intRepr_injective : Function.Injective intRepr := by
  intro a b h
  have := congrArg intReprRead h
  simpa [intReprRead_intRepr] using this

theorem intRepr_nonneg (i : Int) (h : 0 ≤ i) : intRepr i = natDigits i.toNat := by
  unfold intRepr
  rw [if_neg (by omega)]

theorem not_mem_intRepr_of_not_digit_ne_minus {c : Char}
    (hd : c.isDigit = false) (hm : c ≠ '-') (i : Int) : c ∉ intRepr i := by
  unfold intRepr
  by_cases h : i < 0
  · simp only [h, if_true, List.mem_cons]
    rintro (rfl | hmem)
    · exact hm rfl
    · exact not_mem_natDigits hd _ hmem
  · simp only [h, if_false]
    exact not_mem_natDigits hd _

theorem readDigits_natDigits (n : Nat) : readDigits (natDigits n) = some n := by
  unfold readDigits
  rw [if_neg (by simpa [List.isEmpty_iff] using natDigits_ne_nil n)]
  rw [if_pos (by simpa [List.all_eq_true] using natDigits_all_digit n)]
  rw [digitsToNat_natDigits]

theorem parseI64_natDigits {n : Nat} (h : n ≤ i64Max) :
    parseI64 (natDigits n) = some ((n : Int)) := by
  obtain ⟨c, cs, hcs⟩ := List.exists_cons_of_ne_nil (natDigits_ne_nil n)
  have hcd : c.isDigit = true := by
    apply natDigits_all_digit n
    rw [hcs]; exact List.mem_cons_self _ _
  have hplus : c ≠ '+' := by
    intro hc; rw [hc] at hcd; exact Bool.false_ne_true hcd
  have hminus : c ≠ '-' := by
    intro hc; rw [hc] at hcd; exact Bool.false_ne_true hcd
  rw [hcs]
  simp [parseI64, if_neg hplus, if_neg hminus, ← hcs, readDigits_natDigits, h]

/-! ## Theorems: literal stripping and separator splitting -/

theorem dropLit_append (lit r : List Char) : dropLit lit (lit ++ r) = some r := by
  induction lit with
  | nil => rfl
  | cons l ls ih => simp [dropLit, ih]

theorem dropSuffixLit_append (lit front : List Char) :
    dropSuffixLit lit (front ++ lit) = some front := by
  unfold dropSuffixLit
  rw [List.reverse_append, dropLit_append]
  simp

theorem splitSep_ne_nil (sep : Char) (s : List Char) : splitSep sep s ≠ [] := by
  cases s with
  | nil => simp [splitSep]
  | cons c rest =>
    simp only [splitSep]
    by_cases hc : c = sep
    · simp [hc]
    · rw [if_neg hc]
      cases splitSep sep rest with
      | nil => simp [consHead]
      | cons g gs => simp [consHead]

theorem splitSep_no_sep {sep : Char} {s : List Char} (h : sep ∉ s) :
    splitSep sep s = [s] := by
  induction s with
  | nil => rfl
  | cons c rest ih =>
    have hc : c ≠ sep := fun hcs => h (hcs ▸ List.mem_cons_self c rest)
    have hrest : sep ∉ rest := fun hm => h (List.mem_cons_of_mem c hm)
    simp only [splitSep, if_neg hc, ih hrest, consHead]

theorem splitSep_append {sep : Char} {xs : List Char} (h : sep ∉ xs)
    (ys : List Char) :
    splitSep sep (xs ++ sep :: ys) = xs :: splitSep sep ys := by
  induction xs with
  | nil => simp [splitSep]
  | cons c rest ih =>
    have hc : c ≠ sep := fun hcs => h (hcs ▸ List.mem_cons_self c rest)
    have hrest : sep ∉ rest := fun hm => h (List.mem_cons_of_mem c hm)
    rw [List.cons_append]
    simp only [splitSep, if_neg hc]
    rw [ih hrest]
    rfl

theorem not_mem_of_all_class {p : Char → Bool} {s : List Char}
    (h : ∀ c ∈ s, p c = true) {c : Char} (hc : p c = false) : c ∉ s := by
  intro hm
  rw [h c hm] at hc
  exact Bool.noConfusion hc

theorem groupOk_of_all {p : Char → Bool} {s : List Char} (hne : s ≠ [])
    (h : ∀ c ∈ s, p c = true) : groupOk p s = true := by
  unfold groupOk
  rw [List.all_eq_true.mpr h]
  simp [List.isEmpty_iff, hne]

/-! ## Theorems: filename encode/decode round trip (claims C1, C6, C8) -/

theorem underscore_not_field : isFieldChar '_' = false := by decide

theorem underscore_not_mem_intRepr (i : Int) : '_' ∉ intRepr i :=
  not_mem_intRepr_of_not_digit_ne_minus (by decide) (by decide) i

theorem underscore_not_mem_scheme (s : BackupScheme) : '_' ∉ s.display := by
  cases s
  decide

theorem underscore_not_mem_os (os : OperatingSystem) : '_' ∉ os.display := by
  cases os
  decide

theorem scheme_groupOk (s : BackupScheme) :
    groupOk isFieldChar s.display = true := by
  cases s
  decide

theorem os_groupOk (os : OperatingSystem) :
    groupOk isFieldChar os.display = true := by
  cases os
  decide

theorem digits_groupOk (n : Nat) : groupOk Char.isDigit (natDigits n) = true :=
  groupOk_of_all (natDigits_ne_nil n) (natDigits_all_digit n)

theorem digitChar_isNd {d : Nat} (h : d < 10) : isNdDigit (digitChar d) = true := by
  interval_cases d <;> decide

theorem natDigits_all_nd (n : Nat) : ∀ c ∈ natDigits n, isNdDigit c = true := by
  intro c hc
  unfold natDigits at hc
  by_cases h : n = 0
  · simp [h] at hc
    simp [hc]
    decide
  · simp [h] at hc
    obtain ⟨d, hd, rfl⟩ := hc
    exact digitChar_isNd (Nat.digits_lt_base (by norm_num) hd)

theorem ndDigits_groupOk (n : Nat) : groupOk isNdDigit (natDigits n) = true :=
  groupOk_of_all (natDigits_ne_nil n) (natDigits_all_nd n)

theorem minus_not_nd : isNdDigit '-' = false := by decide

/-- An anchored match of the generated filename recovers the five rendered
capture groups, provided timestamp and version are non-negative and the
device identifier is a nonempty `[A-Za-z0-9-]` token. -/
theorem matchBackupFileName_encode (scheme : BackupScheme)
    (os : OperatingSystem) (ts : Int) (dev : DeviceIdentifier)
    (ver : BackupVersion) (hts : 0 ≤ ts) (hver : 0 ≤ ver.val)
    (hdevne : dev.chars ≠ [])
    (hdev : ∀ c ∈ dev.chars, isFieldChar c = true) :
    matchBackupFileName (get_backup_file_name scheme os ts dev ver)
      = some (scheme.display, os.display, natDigits ts.toNat, dev.chars,
          natDigits ver.val.toNat) := by
  have hdevsep : '_' ∉ dev.chars :=
    not_mem_of_all_class hdev underscore_not_field
  have hname : get_backup_file_name scheme os ts dev ver
      = filePrefixChars ++ ((scheme.display ++ '_' :: (os.display
        ++ '_' :: (intRepr ts ++ '_' :: (dev.chars
        ++ '_' :: intRepr ver.val)))) ++ fileSuffixChars) := by
    simp [get_backup_file_name, List.append_assoc]
  rw [hname]
  simp only [matchBackupFileName, dropLit_append, dropSuffixLit_append,
    splitSep_append (underscore_not_mem_scheme scheme),
    splitSep_append (underscore_not_mem_os os),
    splitSep_append (underscore_not_mem_intRepr ts),
    splitSep_append hdevsep,
    splitSep_no_sep (underscore_not_mem_intRepr ver.val)]
  rw [intRepr_nonneg ts hts, intRepr_nonneg ver.val hver]
  rw [if_pos (by simp [scheme_groupOk, os_groupOk, ndDigits_groupOk,
    groupOk_of_all hdevne hdev])]

/-- C1: for every valid `BackupMetadata m`, parsing the filename produced
by `backup_file_name(m)` with `MetadataFromFileName::from_str` succeeds and
returns exactly `m`'s timestamp, operating_system, device_id and
backup_version fields. -/
theorem backup_file_name_roundtrip (m : BackupMetadata) (h : m.valid) :
    MetadataFromFileName.from_str m.backup_file_name
      = .ok ⟨m.timestamp, m.operating_system, m.device_id,
          m.backup_version⟩ := by
  obtain ⟨hts, htsle, hver, hverle, hdevne, hdev⟩ := h
  unfold BackupMetadata.backup_file_name MetadataFromFileName.from_str
  rw [matchBackupFileName_encode m.backup_scheme m.operating_system
    m.timestamp m.device_id m.backup_version hts hver hdevne hdev]
  have h1 : parseI64Field (natDigits m.timestamp.toNat) = .ok m.timestamp := by
    unfold parseI64Field
    rw [parseI64_natDigits (by omega)]
    rw [Int.toNat_of_nonneg hts]
  have h2 : OperatingSystem.from_str m.operating_system.display
      = .ok m.operating_system := by
    cases m.operating_system
    decide
  have h3 : DeviceIdentifier.from_str m.device_id.chars
      = .ok m.device_id := rfl
  have h4 : BackupVersion.from_str (natDigits m.backup_version.val.toNat)
      = .ok m.backup_version := by
    unfold BackupVersion.from_str
    rw [parseI64_natDigits (by omega)]
    dsimp only
    unfold BackupVersion.try_from
    rw [if_neg (by omega), Int.toNat_of_nonneg hver]
  simp [h1, h2, h3, h4, Bind.bind, Except.bind]

/-- Witness for `backup_file_name_roundtrip`: the spec's scenario filename
round-trips through encode and decode. -/
theorem backup_file_name_roundtrip_witness :
    (BackupMetadata.mk .V1 ⟨3⟩ 1700000000 ⟨['d','e','v','1','2','3']⟩
        ⟨['M','y',' ','P','h','o','n','e']⟩ .Ios ['n','o','n','c','e']).valid
    ∧ MetadataFromFileName.from_str
        (BackupMetadata.mk .V1 ⟨3⟩ 1700000000 ⟨['d','e','v','1','2','3']⟩
          ⟨['M','y',' ','P','h','o','n','e']⟩ .Ios
          ['n','o','n','c','e']).backup_file_name
      = .ok ⟨1700000000, .Ios, ⟨['d','e','v','1','2','3']⟩, ⟨3⟩⟩ :=
  ⟨by decide, backup_file_name_roundtrip _ (by decide)⟩

/-- C6: the generated backup filename is the literal `sealvault_backup_`
followed by the scheme, OS, timestamp, device id and version in that order,
each in its canonical string form, separated by single underscores and
ending in `.zip`, with timestamp and version written as unsigned decimal. -/
theorem backup_file_name_format (m : BackupMetadata)
    (hts : 0 ≤ m.timestamp) (hver : 0 ≤ m.backup_version.val) :
    m.backup_file_name
      = ['s','e','a','l','v','a','u','l','t','_','b','a','c','k','u','p','_']
        ++ m.backup_scheme.display ++ ['_'] ++ m.operating_system.display
        ++ ['_'] ++ natDigits m.timestamp.toNat ++ ['_']
        ++ m.device_id.chars ++ ['_']
        ++ natDigits m.backup_version.val.toNat ++ ['.','z','i','p'] := by
  unfold BackupMetadata.backup_file_name get_backup_file_name
  rw [intRepr_nonneg m.timestamp hts, intRepr_nonneg m.backup_version.val hver]
  simp [filePrefixChars, fileSuffixChars]

/-- Witness for `backup_file_name_format`: evaluation at a concrete
metadata record. -/
theorem backup_file_name_format_witness :
    (0 : Int) ≤ 1700000000 ∧ (0 : Int) ≤ 3
    ∧ (BackupMetadata.mk .V1 ⟨3⟩ 1700000000 ⟨['d','e','v','1']⟩ ⟨['p']⟩ .Ios
        ['n']).backup_file_name
      = ['s','e','a','l','v','a','u','l','t','_','b','a','c','k','u','p','_']
        ++ BackupScheme.V1.display ++ ['_'] ++ OperatingSystem.Ios.display
        ++ ['_'] ++ natDigits (1700000000 : Int).toNat ++ ['_']
        ++ ['d','e','v','1'] ++ ['_'] ++ natDigits (3 : Int).toNat
        ++ ['.','z','i','p'] :=
  ⟨by norm_num, by norm_num,
    backup_file_name_format
      (BackupMetadata.mk .V1 ⟨3⟩ 1700000000 ⟨['d','e','v','1']⟩ ⟨['p']⟩ .Ios
        ['n']) (by norm_num) (by norm_num)⟩

theorem consHead_length (c : Char) (l : List (List Char)) (h : l ≠ []) :
    (consHead c l).length = l.length := by
  cases l with
  | nil => exact absurd rfl h
  | cons g gs => rfl

theorem splitSep_length_pos (sep : Char) (s : List Char) :
    0 < (splitSep sep s).length :=
  List.length_pos.mpr (splitSep_ne_nil sep s)

theorem splitSep_cons_self (sep : Char) (ys : List Char) :
    splitSep sep (sep :: ys) = [] :: splitSep sep ys := by
  simp [splitSep]

theorem splitSep_append_length (sep : Char) (xs ys : List Char) :
    (splitSep sep (xs ++ sep :: ys)).length
      = (splitSep sep xs).length + (splitSep sep ys).length := by
  induction xs with
  | nil =>
    rw [List.nil_append, splitSep_cons_self]
    simp [splitSep]
    omega
  | cons c xs ih =>
    rw [List.cons_append]
    by_cases hc : c = sep
    · subst hc
      rw [splitSep_cons_self, splitSep_cons_self]
      simp only [List.length_cons, ih]
      omega
    · simp only [splitSep, if_neg hc]
      rw [consHead_length _ _ (splitSep_ne_nil _ _),
        consHead_length _ _ (splitSep_ne_nil _ _), ih]

theorem two_le_splitSep_length {sep : Char} {xs : List Char} (h : sep ∈ xs) :
    2 ≤ (splitSep sep xs).length := by
  induction xs with
  | nil => cases h
  | cons c xs ih =>
    by_cases hc : c = sep
    · subst hc
      rw [splitSep_cons_self]
      simp only [List.length_cons]
      have := splitSep_length_pos c xs
      omega
    · have hmem : sep ∈ xs := by
        rcases List.mem_cons.mp h with h1 | h2
        · exact absurd h1.symm hc
        · exact h2
      simp only [splitSep, if_neg hc]
      rw [consHead_length _ _ (splitSep_ne_nil _ _)]
      exact ih hmem

theorem groupOk_minus_nd_false (l : List Char) :
    groupOk isNdDigit ('-' :: l) = false := by
  simp [groupOk, minus_not_nd]

/-- C8: for a `BackupMetadata` whose timestamp is negative, the generated
filename renders the timestamp with a leading minus sign, which the
pattern's digits-only timestamp field rejects, so
`MetadataFromFileName::from_str(backup_file_name(m))` fails with the
non-retriable pattern-mismatch error. -/
theorem backup_file_name_negative_timestamp_fails (m : BackupMetadata)
    (hts : m.timestamp < 0) :
    MetadataFromFileName.from_str m.backup_file_name
      = .error (.Fatal "Invalid backup file name format") := by
  have hmatch : matchBackupFileName m.backup_file_name = none := by
    have hname : m.backup_file_name
        = filePrefixChars ++ ((m.backup_scheme.display
          ++ '_' :: (m.operating_system.display
          ++ '_' :: (intRepr m.timestamp
          ++ '_' :: (m.device_id.chars
          ++ '_' :: intRepr m.backup_version.val)))) ++ fileSuffixChars) := by
      simp [BackupMetadata.backup_file_name, get_backup_file_name,
        List.append_assoc]
    rw [hname]
    simp only [matchBackupFileName, dropLit_append, dropSuffixLit_append,
      splitSep_append (underscore_not_mem_scheme m.backup_scheme),
      splitSep_append (underscore_not_mem_os m.operating_system),
      splitSep_append (underscore_not_mem_intRepr m.timestamp)]
    have hneg : intRepr m.timestamp = '-' :: natDigits (-m.timestamp).toNat := by
      unfold intRepr
      rw [if_pos hts]
    by_cases hdev : '_' ∈ m.device_id.chars
    · have h3 : 3 ≤ (splitSep '_' (m.device_id.chars
          ++ '_' :: intRepr m.backup_version.val)).length := by
        rw [splitSep_append_length]
        have h2 := two_le_splitSep_length hdev
        have h1 := splitSep_length_pos '_' (intRepr m.backup_version.val)
        omega
      obtain ⟨r1, L1, hL1⟩ := List.exists_cons_of_ne_nil
        (splitSep_ne_nil '_' (m.device_id.chars
          ++ '_' :: intRepr m.backup_version.val))
      rw [hL1] at h3
      have hL1ne : L1 ≠ [] := by
        intro hnil
        rw [hnil] at h3
        simp at h3
      obtain ⟨r2, L2, hL2⟩ := List.exists_cons_of_ne_nil hL1ne
      rw [hL2] at h3
      have hL2ne : L2 ≠ [] := by
        intro hnil
        rw [hnil] at h3
        simp at h3
      obtain ⟨r3, L3, hL3⟩ := List.exists_cons_of_ne_nil hL2ne
      rw [hL1, hL2, hL3]
    · rw [splitSep_append hdev,
        splitSep_no_sep (underscore_not_mem_intRepr m.backup_version.val)]
      rw [hneg]
      dsimp only
      rw [if_neg (by simp [groupOk_minus_nd_false])]
  unfold MetadataFromFileName.from_str
  rw [hmatch]

/-- Witness for `backup_file_name_negative_timestamp_fails`: evaluation at
a concrete metadata record with timestamp `-5`. -/
theorem backup_file_name_negative_timestamp_fails_witness :
    (-5 : Int) < 0
    ∧ MetadataFromFileName.from_str
        (BackupMetadata.mk .V1 ⟨3⟩ (-5) ⟨['d','e','v','1']⟩ ⟨['p']⟩ .Ios
          ['n']).backup_file_name
      = .error (.Fatal "Invalid backup file name format") :=
  ⟨by norm_num,
    backup_file_name_negative_timestamp_fails
      (BackupMetadata.mk .V1 ⟨3⟩ (-5) ⟨['d','e','v','1']⟩ ⟨['p']⟩ .Ios ['n'])
      (by norm_num)⟩

/-! ## Theorems: backup version construction (claims C4, C9) -/

/-- C4: `BackupVersion::try_from(n)` fails with a non-retriable (`Fatal`)
error exactly when `n < 0` and otherwise returns a `BackupVersion` wrapping
exactly `n`; `BackupVersion::from_str(s)` fails with a `Retriable` error
exactly when `s` does not parse as a valid `i64` literal, and on a
successful parse delegates to the validated `TryFrom<i64>` path, so a
syntactically valid but negative value still fails non-retriably. -/
theorem backupVersion_construction_error_kinds (n : Int) (s : List Char) :
    ((∃ e, BackupVersion.try_from n = .error (.Fatal e)) ↔ n < 0)
    ∧ (0 ≤ n → BackupVersion.try_from n = .ok ⟨n⟩)
    ∧ ((∃ e, BackupVersion.from_str s = .error (.Retriable e)) ↔
        parseI64 s = none)
    ∧ (∀ v, parseI64 s = some v →
        BackupVersion.from_str s = BackupVersion.try_from v) := by
  refine ⟨⟨?_, ?_⟩, ?_, ⟨?_, ?_⟩, ?_⟩
  · rintro ⟨e, he⟩
    by_contra hn
    unfold BackupVersion.try_from at he
    rw [if_neg hn] at he
    exact Except.noConfusion he
  · intro hn
    exact ⟨"Negative backup version", by unfold BackupVersion.try_from; rw [if_pos hn]⟩
  · intro hn
    unfold BackupVersion.try_from
    rw [if_neg (by omega)]
  · rintro ⟨e, he⟩
    unfold BackupVersion.from_str at he
    cases hp : parseI64 s with
    | none => rfl
    | some v =>
      rw [hp] at he
      dsimp only at he
      unfold BackupVersion.try_from at he
      by_cases hv : v < 0
      · rw [if_pos hv] at he
        exact absurd (Except.error.inj he) (by intro h; exact Error.noConfusion h)
      · rw [if_neg hv] at he
        exact Except.noConfusion he
  · intro hp
    refine ⟨"Failed to parse str to backup version with error", ?_⟩
    unfold BackupVersion.from_str
    rw [hp]
  · intro v hv
    unfold BackupVersion.from_str
    rw [hv]

/-- Witness for `backupVersion_construction_error_kinds`: concrete checks at
`n = 7`, `s = "abc"` and `s = "-3"`. -/
theorem backupVersion_construction_error_kinds_witness :
    BackupVersion.try_from 7 = .ok ⟨7⟩
    ∧ (∃ e, BackupVersion.from_str (['a', 'b', 'c']) = .error (.Retriable e))
    ∧ BackupVersion.from_str (['-', '3']) = BackupVersion.try_from (-3) := by
  refine ⟨(backupVersion_construction_error_kinds 7 []).2.1 (by norm_num),
    (backupVersion_construction_error_kinds 0 (['a', 'b', 'c'])).2.2.1.2
      (by decide),
    (backupVersion_construction_error_kinds 0 (['-', '3'])).2.2.2 (-3)
      (by decide)⟩

/-- C9: every construction path of `BackupVersion` — validated integer
conversion, string parsing, and structured deserialization (which the
source routes through `TryFrom<i64>`) — yields a non-negative wrapped
value, and deserializing a negative version fails instead of producing a
value violating the invariant. -/
theorem backupVersion_nonneg_invariant (n : Int) (s : List Char) :
    (∀ bv, BackupVersion.try_from n = .ok bv → 0 ≤ bv.val)
    ∧ (∀ bv, BackupVersion.from_str s = .ok bv → 0 ≤ bv.val)
    ∧ (∀ bv, BackupVersion.deserialize n = .ok bv → 0 ≤ bv.val)
    ∧ (n < 0 → ∃ e, BackupVersion.deserialize n = .error e) := by
  have htf : ∀ x : Int, ∀ bv, BackupVersion.try_from x = .ok bv → 0 ≤ bv.val := by
    intro x bv h
    unfold BackupVersion.try_from at h
    by_cases hx : x < 0
    · rw [if_pos hx] at h
      exact Except.noConfusion h
    · rw [if_neg hx] at h
      cases Except.ok.inj h
      simpa using hx
  refine ⟨htf n, ?_, htf n, ?_⟩
  · intro bv h
    unfold BackupVersion.from_str at h
    cases hp : parseI64 s with
    | none => rw [hp] at h; exact Except.noConfusion h
    | some v => rw [hp] at h; exact htf v bv h
  · intro hn
    refine ⟨.Fatal "Negative backup version", ?_⟩
    unfold BackupVersion.deserialize BackupVersion.try_from
    rw [if_pos hn]

/-- Witness for `backupVersion_nonneg_invariant`: concrete checks at
`n = -1` (deserialization fails) and `s = "5"` (parsed value is
non-negative). -/
theorem backupVersion_nonneg_invariant_witness :
    (∃ e, BackupVersion.deserialize (-1) = .error e)
    ∧ 0 ≤ (BackupVersion.mk 5).val := by
  refine ⟨(backupVersion_nonneg_invariant (-1) []).2.2.2 (by norm_num),
    (backupVersion_nonneg_invariant 0 (['5'])).2.1 ⟨5⟩ (by decide)⟩

/-! ## Theorems: filename parse failure kinds (claim C5) -/

/-- C5 counterexample: a filename that matches the pattern but whose
version field exceeds the `i64` range makes `MetadataFromFileName::from_str`
fail with a `Retriable` error (through `BackupVersion::from_str`), so the
failure is not always non-retriable as the claim states. -/
theorem from_str_overflow_version_retriable :
    MetadataFromFileName.from_str
      (filePrefixChars ++ ['v','1','_','i','o','s','_','0','_','d','_',
        '9','9','9','9','9','9','9','9','9','9',
        '9','9','9','9','9','9','9','9','9','9'] ++ fileSuffixChars)
      = .error (.Retriable "Failed to parse str to backup version with error") := by
  decide

/-- C5 amended: every string the backup-filename parser rejects yields an
error; a pattern mismatch (wrong prefix, wrong suffix, wrong field count, a
field outside its character class) always yields the non-retriable `Fatal`
format error, and a field-level parse failure yields a `Fatal` error in
every case except one: a version field that fails `i64` parsing — digits
outside ASCII (the regex's Unicode `\d` admits any `Nd` digit, while
`i64::from_str` is ASCII-only) or a value overflowing the `i64` range —
fails with a `Retriable` error via `BackupVersion::from_str`. -/
theorem from_str_failure_kinds (s : List Char) :
    (matchBackupFileName s = none →
      MetadataFromFileName.from_str s
        = .error (.Fatal "Invalid backup file name format"))
    ∧ (∀ e, MetadataFromFileName.from_str s = .error e →
        (∃ msg, e = .Fatal msg)
        ∨ (∃ msg sch os ts dev ver,
            e = .Retriable msg
            ∧ matchBackupFileName s = some (sch, os, ts, dev, ver)
            ∧ parseI64 ver = none)) := by
  constructor
  · intro hm
    unfold MetadataFromFileName.from_str
    rw [hm]
  · intro e he
    cases hm : matchBackupFileName s with
    | none =>
      unfold MetadataFromFileName.from_str at he
      rw [hm] at he
      exact Or.inl ⟨"Invalid backup file name format",
        (Except.error.inj he).symm⟩
    | some q =>
      obtain ⟨sch, os, ts, dev, ver⟩ := q
      unfold MetadataFromFileName.from_str at he
      rw [hm] at he
      dsimp only at he
      unfold parseI64Field at he
      cases hts : parseI64 ts with
      | none =>
        rw [hts] at he
        simp only [Bind.bind, Except.bind] at he
        exact Or.inl ⟨"Failed to parse integer field in backup file name",
          (Except.error.inj he).symm⟩
      | some tsv =>
        rw [hts] at he
        simp only [Bind.bind, Except.bind] at he
        unfold OperatingSystem.from_str at he
        by_cases hos : os = ['i', 'o', 's']
        · rw [if_pos hos] at he
          simp only [Except.bind, DeviceIdentifier.from_str] at he
          unfold BackupVersion.from_str at he
          cases hver : parseI64 ver with
          | none =>
            rw [hver] at he
            simp only [Except.bind] at he
            refine Or.inr ⟨"Failed to parse str to backup version with error",
              sch, os, ts, dev, ver, (Except.error.inj he).symm, rfl, hver⟩
          | some verv =>
            rw [hver] at he
            dsimp only at he
            unfold BackupVersion.try_from at he
            by_cases hvn : verv < 0
            · rw [if_pos hvn] at he
              simp only [Except.bind] at he
              exact Or.inl ⟨"Negative backup version",
                (Except.error.inj he).symm⟩
            · rw [if_neg hvn] at he
              simp only [Except.bind] at he
              exact Except.noConfusion he
        · rw [if_neg hos] at he
          simp only [Except.bind] at he
          exact Or.inl ⟨"Unrecognized operating system",
            (Except.error.inj he).symm⟩

/-- Witness for `from_str_failure_kinds`: a non-matching filename produces
the `Fatal` format error, and a filename whose version field is the
Arabic-Indic digit three (U+0663) — matched by the Unicode-mode regex,
rejected by ASCII `i64` parsing without any overflow — fails with the
`Retriable` error. -/
theorem from_str_failure_kinds_witness :
    matchBackupFileName (['n','o','p','e']) = none
    ∧ MetadataFromFileName.from_str (['n','o','p','e'])
      = .error (.Fatal "Invalid backup file name format")
    ∧ MetadataFromFileName.from_str
        (filePrefixChars ++ ['v','1','_','i','o','s','_','0','_','d','_',
          Char.ofNat 0x663] ++ fileSuffixChars)
      = .error
          (.Retriable "Failed to parse str to backup version with error") :=
  ⟨by decide, (from_str_failure_kinds (['n','o','p','e'])).1 (by decide),
    by decide⟩

/-! ## Theorems: last-backup-status resolver (claims C3, C10) -/

theorem last_uploaded_backup_eval (did : DeviceIdentifier)
    (f : List Char → Bool) (bv : BackupVersion) (ods : Option (List Char)) :
    last_uploaded_backup (Resources.mk (.ok ods) (.ok bv) did f)
      = match ods with
        | none => .ok none
        | some ds =>
          match parse_rfc3339_timestamp ds with
          | .error e => .error e
          | .ok t =>
            if f (get_backup_file_name BackupScheme.V1
                OperatingSystem.defaultOs t did bv)
            then .ok (some t) else .ok none := by
  unfold last_uploaded_backup
  simp only [Bind.bind, Except.bind, Pure.pure, Except.pure]
  cases ods with
  | none => rfl
  | some ds =>
    dsimp only
    cases hp : parse_rfc3339_timestamp ds with
    | error e => rfl
    | ok t =>
      cases f (get_backup_file_name BackupScheme.V1
          OperatingSystem.defaultOs t did bv) <;> rfl

theorem last_uploaded_backup_eval_some_err (did : DeviceIdentifier)
    (f : List Char → Bool) (bv : BackupVersion) (ds : List Char) (e : Error)
    (hp : parse_rfc3339_timestamp ds = .error e) :
    last_uploaded_backup (Resources.mk (.ok (some ds)) (.ok bv) did f)
      = .error e := by
  rw [last_uploaded_backup_eval did f bv (some ds)]
  dsimp only
  rw [hp]

theorem last_uploaded_backup_eval_some_ok (did : DeviceIdentifier)
    (f : List Char → Bool) (bv : BackupVersion) (ds : List Char) (t : Int)
    (hp : parse_rfc3339_timestamp ds = .ok t) :
    last_uploaded_backup (Resources.mk (.ok (some ds)) (.ok bv) did f)
      = if f (get_backup_file_name BackupScheme.V1 OperatingSystem.defaultOs
          t did bv) then .ok (some t) else .ok none := by
  rw [last_uploaded_backup_eval did f bv (some ds)]
  dsimp only
  rw [hp]

/-- C3: with the settings fetches succeeding, the resolver returns `None`
when no backup timestamp is recorded; when a timestamp string is recorded
and parses to unix time `t`, it returns `Some t` exactly when the storage
collaborator reports the filename derived from the default scheme and OS
tags, the device id and the fetched version and timestamp as uploaded, and
`None` when the storage collaborator reports it absent. -/
theorem last_uploaded_backup_resolution
    (ft : Except Error (Option (List Char))) (fv : Except Error BackupVersion)
    (did : DeviceIdentifier) (f : List Char → Bool) (bv : BackupVersion)
    (ds : List Char) (t : Int) :
    (ft = .ok none → fv = .ok bv →
      last_uploaded_backup (Resources.mk ft fv did f) = .ok none)
    ∧ (ft = .ok (some ds) → fv = .ok bv →
        parse_rfc3339_timestamp ds = .ok t →
        (last_uploaded_backup (Resources.mk ft fv did f) = .ok (some t)
          ↔ f (get_backup_file_name BackupScheme.V1 OperatingSystem.defaultOs
              t did bv) = true)
        ∧ (f (get_backup_file_name BackupScheme.V1 OperatingSystem.defaultOs
              t did bv) = false →
            last_uploaded_backup (Resources.mk ft fv did f) = .ok none)) := by
  constructor
  · intro h1 h2
    rw [h1, h2, last_uploaded_backup_eval did f bv none]
  · intro h1 h2 h3
    rw [h1, h2, last_uploaded_backup_eval did f bv (some ds)]
    dsimp only
    rw [h3]
    dsimp only
    cases hup : f (get_backup_file_name BackupScheme.V1
        OperatingSystem.defaultOs t did bv) with
    | true =>
      refine ⟨⟨fun _ => rfl, fun _ => rfl⟩, ?_⟩
      intro hfalse
      exact Bool.noConfusion hfalse
    | false =>
      refine ⟨⟨?_, ?_⟩, fun _ => rfl⟩
      · intro hsome
        exact absurd (Except.ok.inj hsome) (by intro h; exact Option.noConfusion h)
      · intro htrue
        exact Bool.noConfusion htrue

/-- Witness for `last_uploaded_backup_resolution`: concrete resources with
a recorded timestamp `2022-01-01T00:00:00Z` (unix time 1640995200), version
2, and storage reporting every file as uploaded. -/
theorem last_uploaded_backup_resolution_witness :
    parse_rfc3339_timestamp
      (['2','0','2','2','-','0','1','-','0','1','T',
        '0','0',':','0','0',':','0','0','Z']) = .ok 1640995200
    ∧ last_uploaded_backup (Resources.mk
        (.ok (some (['2','0','2','2','-','0','1','-','0','1','T',
          '0','0',':','0','0',':','0','0','Z'])))
        (.ok ⟨2⟩) ⟨['d']⟩ (fun _ => true))
      = .ok (some 1640995200) := by
  refine ⟨by decide, ?_⟩
  have h := ((last_uploaded_backup_resolution
    (.ok (some (['2','0','2','2','-','0','1','-','0','1','T',
      '0','0',':','0','0',':','0','0','Z'])))
    (.ok ⟨2⟩) ⟨['d']⟩ (fun _ => true) ⟨2⟩
    (['2','0','2','2','-','0','1','-','0','1','T',
      '0','0',':','0','0',':','0','0','Z']) 1640995200).2
    rfl rfl (by decide)).1.mpr rfl
  exact h

/-- C10: the resolver distinguishes errors from absence.  A failing
timestamp fetch, a failing version fetch, or a recorded timestamp string
that fails RFC3339 parsing each surface as `Err` (never `None`), and in
those cases the storage collaborator is never consulted (the result does
not depend on the storage predicate); `None` is returned only in the two
absence cases: no recorded timestamp, or storage reporting the derived
filename as not uploaded. -/
theorem last_uploaded_backup_error_vs_absence
    (ft : Except Error (Option (List Char))) (fv : Except Error BackupVersion)
    (did : DeviceIdentifier) (f g : List Char → Bool) :
    (∀ e, ft = .error e →
      last_uploaded_backup (Resources.mk ft fv did f) = .error e
      ∧ last_uploaded_backup (Resources.mk ft fv did f)
        = last_uploaded_backup (Resources.mk ft fv did g))
    ∧ (∀ x e, ft = .ok x → fv = .error e →
        last_uploaded_backup (Resources.mk ft fv did f) = .error e
        ∧ last_uploaded_backup (Resources.mk ft fv did f)
          = last_uploaded_backup (Resources.mk ft fv did g))
    ∧ (∀ ds bv e, ft = .ok (some ds) → fv = .ok bv →
        parse_rfc3339_timestamp ds = .error e →
        last_uploaded_backup (Resources.mk ft fv did f) = .error e
        ∧ last_uploaded_backup (Resources.mk ft fv did f)
          = last_uploaded_backup (Resources.mk ft fv did g))
    ∧ (last_uploaded_backup (Resources.mk ft fv did f) = .ok none →
        ft = .ok none
        ∨ ∃ ds bv t, ft = .ok (some ds) ∧ fv = .ok bv
            ∧ parse_rfc3339_timestamp ds = .ok t
            ∧ f (get_backup_file_name BackupScheme.V1
                OperatingSystem.defaultOs t did bv) = false) := by
  have herr1 : ∀ e, ft = .error e → ∀ h : List Char → Bool,
      last_uploaded_backup (Resources.mk ft fv did h) = .error e := by
    intro e he h
    subst he
    rfl
  have herr2 : ∀ x e, ft = .ok x → fv = .error e → ∀ h : List Char → Bool,
      last_uploaded_backup (Resources.mk ft fv did h) = .error e := by
    intro x e hx he h
    subst hx
    subst he
    rfl
  have herr3 : ∀ ds bv e, ft = .ok (some ds) → fv = .ok bv →
      parse_rfc3339_timestamp ds = .error e → ∀ h : List Char → Bool,
      last_uploaded_backup (Resources.mk ft fv did h) = .error e := by
    intro ds bv e hds hbv hp h
    rw [hds, hbv, last_uploaded_backup_eval did h bv (some ds)]
    dsimp only
    rw [hp]
  refine ⟨fun e he => ⟨herr1 e he f, (herr1 e he f).trans (herr1 e he g).symm⟩,
    fun x e hx he => ⟨herr2 x e hx he f,
      (herr2 x e hx he f).trans (herr2 x e hx he g).symm⟩,
    fun ds bv e hds hbv hp => ⟨herr3 ds bv e hds hbv hp f,
      (herr3 ds bv e hds hbv hp f).trans (herr3 ds bv e hds hbv hp g).symm⟩,
    ?_⟩
  intro hnone
  cases hft : ft with
  | error e =>
    rw [herr1 e hft f] at hnone
    exact Except.noConfusion hnone
  | ok ods =>
    cases hfv : fv with
    | error e =>
      rw [herr2 ods e hft hfv f] at hnone
      exact Except.noConfusion hnone
    | ok bv =>
      cases ods with
      | none => exact Or.inl rfl
      | some ds =>
        refine Or.inr ⟨ds, bv, ?_⟩
        rw [hft, hfv] at hnone
        cases hp : parse_rfc3339_timestamp ds with
        | error e =>
          rw [last_uploaded_backup_eval_some_err did f bv ds e hp] at hnone
          exact Except.noConfusion hnone
        | ok t =>
          rw [last_uploaded_backup_eval_some_ok did f bv ds t hp] at hnone
          cases hup : f (get_backup_file_name BackupScheme.V1
              OperatingSystem.defaultOs t did bv) with
          | true =>
            rw [hup, if_pos rfl] at hnone
            exact absurd (Except.ok.inj hnone)
              (by intro h; exact Option.noConfusion h)
          | false => exact ⟨t, rfl, rfl, rfl, hup⟩

/-- Witness for `last_uploaded_backup_error_vs_absence`: a malformed
recorded timestamp string surfaces as the parse error, independently of
the storage predicate. -/
theorem last_uploaded_backup_error_vs_absence_witness :
    parse_rfc3339_timestamp (['b','a','d'])
      = .error (.Fatal "Invalid RFC3339 timestamp")
    ∧ last_uploaded_backup (Resources.mk (.ok (some (['b','a','d'])))
        (.ok ⟨2⟩) ⟨['d']⟩ (fun _ => true))
      = .error (.Fatal "Invalid RFC3339 timestamp")
    ∧ last_uploaded_backup (Resources.mk (.ok (some (['b','a','d'])))
        (.ok ⟨2⟩) ⟨['d']⟩ (fun _ => true))
      = last_uploaded_backup (Resources.mk (.ok (some (['b','a','d'])))
          (.ok ⟨2⟩) ⟨['d']⟩ (fun _ => false)) := by
  refine ⟨by decide, ?_, ?_⟩
  · exact ((last_uploaded_backup_error_vs_absence (.ok (some (['b','a','d'])))
      (.ok ⟨2⟩) ⟨['d']⟩ (fun _ => true) (fun _ => false)).2.2.1
      (['b','a','d']) ⟨2⟩ (.Fatal "Invalid RFC3339 timestamp")
      rfl rfl (by decide)).1
  · exact ((last_uploaded_backup_error_vs_absence (.ok (some (['b','a','d'])))
      (.ok ⟨2⟩) ⟨['d']⟩ (fun _ => true) (fun _ => false)).2.2.1
      (['b','a','d']) ⟨2⟩ (.Fatal "Invalid RFC3339 timestamp")
      rfl rfl (by decide)).2

/-! ## Theorems: canonical JSON serialization (claim C2) -/

theorem hexVal_hexChar {d : Nat} (h : d < 16) : hexVal (hexChar d) = d := by
  interval_cases d <;> rfl

theorem hexChar_ne_quote {d : Nat} (h : d < 16) : hexChar d ≠ '"' := by
  interval_cases d <;> decide

theorem hexChar_ne_backslash {d : Nat} (h : d < 16) : hexChar d ≠ '\\' := by
  interval_cases d <;> decide

theorem takeEscaped_quote (r : List Char) : takeEscaped ('"' :: r) = some ([], r) := by
  rw [takeEscaped.eq_def]
  dsimp only
  rw [if_pos rfl]

theorem takeEscaped_esc (d : Char) (t : List Char) :
    takeEscaped ('\\' :: d :: t)
      = (takeEscaped t).map (fun p => ('\\' :: d :: p.1, p.2)) := by
  rw [takeEscaped.eq_def]
  dsimp only
  rw [if_neg (by decide), if_pos rfl]

theorem takeEscaped_normal {c : Char} (h1 : c ≠ '"') (h2 : c ≠ '\\')
    (t : List Char) :
    takeEscaped (c :: t) = (takeEscaped t).map (fun p => (c :: p.1, p.2)) := by
  rw [takeEscaped.eq_def]
  dsimp only
  rw [if_neg h1, if_neg h2]

theorem takeEscaped_escapeChar (c : Char) (X : List Char) :
    takeEscaped (escapeChar c ++ X)
      = (takeEscaped X).map (fun p => (escapeChar c ++ p.1, p.2)) := by
  by_cases h1 : c = '"'
  · subst h1
    rw [show escapeChar '"' = ['\\', '"'] from rfl]
    rw [show (['\\', '"'] : List Char) ++ X = '\\' :: '"' :: X from rfl]
    rw [takeEscaped_esc]
    cases takeEscaped X <;> rfl
  by_cases h2 : c = '\\'
  · subst h2
    rw [show escapeChar '\\' = ['\\', '\\'] from rfl]
    rw [show (['\\', '\\'] : List Char) ++ X = '\\' :: '\\' :: X from rfl]
    rw [takeEscaped_esc]
    cases takeEscaped X <;> rfl
  by_cases h3 : c = Char.ofNat 8
  · subst h3
    rw [show escapeChar (Char.ofNat 8) = ['\\', 'b'] from rfl]
    rw [show (['\\', 'b'] : List Char) ++ X = '\\' :: 'b' :: X from rfl]
    rw [takeEscaped_esc]
    cases takeEscaped X <;> rfl
  by_cases h4 : c = Char.ofNat 9
  · subst h4
    rw [show escapeChar (Char.ofNat 9) = ['\\', 't'] from rfl]
    rw [show (['\\', 't'] : List Char) ++ X = '\\' :: 't' :: X from rfl]
    rw [takeEscaped_esc]
    cases takeEscaped X <;> rfl
  by_cases h5 : c = Char.ofNat 10
  · subst h5
    rw [show escapeChar (Char.ofNat 10) = ['\\', 'n'] from rfl]
    rw [show (['\\', 'n'] : List Char) ++ X = '\\' :: 'n' :: X from rfl]
    rw [takeEscaped_esc]
    cases takeEscaped X <;> rfl
  by_cases h6 : c = Char.ofNat 12
  · subst h6
    rw [show escapeChar (Char.ofNat 12) = ['\\', 'f'] from rfl]
    rw [show (['\\', 'f'] : List Char) ++ X = '\\' :: 'f' :: X from rfl]
    rw [takeEscaped_esc]
    cases takeEscaped X <;> rfl
  by_cases h7 : c = Char.ofNat 13
  · subst h7
    rw [show escapeChar (Char.ofNat 13) = ['\\', 'r'] from rfl]
    rw [show (['\\', 'r'] : List Char) ++ X = '\\' :: 'r' :: X from rfl]
    rw [takeEscaped_esc]
    cases takeEscaped X <;> rfl
  by_cases h8 : c.toNat < 32
  · have hch : escapeChar c
        = ['\\', 'u', '0', '0', hexChar (c.toNat / 16), hexChar (c.toNat % 16)] := by
      unfold escapeChar
      rw [if_neg h1, if_neg h2, if_neg h3, if_neg h4, if_neg h5, if_neg h6,
        if_neg h7, if_pos h8]
    rw [hch]
    simp only [List.cons_append, List.nil_append]
    rw [takeEscaped_esc,
      takeEscaped_normal (by decide) (by decide),
      takeEscaped_normal (by decide) (by decide),
      takeEscaped_normal (hexChar_ne_quote (by omega))
        (hexChar_ne_backslash (by omega)),
      takeEscaped_normal (hexChar_ne_quote (by omega))
        (hexChar_ne_backslash (by omega))]
    cases takeEscaped X <;> rfl
  · have hch : escapeChar c = [c] := by
      unfold escapeChar
      rw [if_neg h1, if_neg h2, if_neg h3, if_neg h4, if_neg h5, if_neg h6,
        if_neg h7, if_neg h8]
    rw [hch, List.singleton_append, takeEscaped_normal h1 h2]
    cases takeEscaped X <;> rfl

theorem takeEscaped_escape (s r : List Char) :
    takeEscaped (escapeStr s ++ '"' :: r) = some (escapeStr s, r) := by
  induction s with
  | nil => rw [show escapeStr [] = [] from rfl, List.nil_append, takeEscaped_quote]
  | cons c cs ih =>
    rw [show escapeStr (c :: cs) = escapeChar c ++ escapeStr cs from rfl,
      List.append_assoc, takeEscaped_escapeChar, ih]
    rfl

theorem unescapeStr_escapeChar (c : Char) (X : List Char) :
    unescapeStr (escapeChar c ++ X) = (unescapeStr X).map (fun r => c :: r) := by
  by_cases h1 : c = '"'
  · subst h1
    rw [show escapeChar '"' = ['\\', '"'] from rfl]
    rw [show (['\\', '"'] : List Char) ++ X = '\\' :: '"' :: X from rfl]
    rw [unescapeStr.eq_def]
    dsimp only
    rw [if_pos rfl, if_neg (by decide), if_pos rfl]
  by_cases h2 : c = '\\'
  · subst h2
    rw [show escapeChar '\\' = ['\\', '\\'] from rfl]
    rw [show (['\\', '\\'] : List Char) ++ X = '\\' :: '\\' :: X from rfl]
    rw [unescapeStr.eq_def]
    dsimp only
    rw [if_pos rfl, if_neg (by decide), if_neg (by decide), if_pos rfl]
  by_cases h3 : c = Char.ofNat 8
  · subst h3
    rw [show escapeChar (Char.ofNat 8) = ['\\', 'b'] from rfl]
    rw [show (['\\', 'b'] : List Char) ++ X = '\\' :: 'b' :: X from rfl]
    rw [unescapeStr.eq_def]
    dsimp only
    rw [if_pos rfl, if_neg (by decide), if_neg (by decide), if_neg (by decide),
      if_pos rfl]
  by_cases h4 : c = Char.ofNat 9
  · subst h4
    rw [show escapeChar (Char.ofNat 9) = ['\\', 't'] from rfl]
    rw [show (['\\', 't'] : List Char) ++ X = '\\' :: 't' :: X from rfl]
    rw [unescapeStr.eq_def]
    dsimp only
    rw [if_pos rfl, if_neg (by decide), if_neg (by decide), if_neg (by decide),
      if_neg (by decide), if_pos rfl]
  by_cases h5 : c = Char.ofNat 10
  · subst h5
    rw [show escapeChar (Char.ofNat 10) = ['\\', 'n'] from rfl]
    rw [show (['\\', 'n'] : List Char) ++ X = '\\' :: 'n' :: X from rfl]
    rw [unescapeStr.eq_def]
    dsimp only
    rw [if_pos rfl, if_neg (by decide), if_neg (by decide), if_neg (by decide),
      if_neg (by decide), if_neg (by decide), if_pos rfl]
  by_cases h6 : c = Char.ofNat 12
  · subst h6
    rw [show escapeChar (Char.ofNat 12) = ['\\', 'f'] from rfl]
    rw [show (['\\', 'f'] : List Char) ++ X = '\\' :: 'f' :: X from rfl]
    rw [unescapeStr.eq_def]
    dsimp only
    rw [if_pos rfl, if_neg (by decide), if_neg (by decide), if_neg (by decide),
      if_neg (by decide), if_neg (by decide), if_neg (by decide), if_pos rfl]
  by_cases h7 : c = Char.ofNat 13
  · subst h7
    rw [show escapeChar (Char.ofNat 13) = ['\\', 'r'] from rfl]
    rw [show (['\\', 'r'] : List Char) ++ X = '\\' :: 'r' :: X from rfl]
    rw [unescapeStr.eq_def]
    dsimp only
    rw [if_pos rfl, if_neg (by decide), if_neg (by decide), if_neg (by decide),
      if_neg (by decide), if_neg (by decide), if_neg (by decide),
      if_neg (by decide), if_pos rfl]
  by_cases h8 : c.toNat < 32
  · have hch : escapeChar c
        = ['\\', 'u', '0', '0', hexChar (c.toNat / 16), hexChar (c.toNat % 16)] := by
      unfold escapeChar
      rw [if_neg h1, if_neg h2, if_neg h3, if_neg h4, if_neg h5, if_neg h6,
        if_neg h7, if_pos h8]
    rw [hch]
    simp only [List.cons_append, List.nil_append]
    rw [unescapeStr.eq_def]
    dsimp only
    rw [if_pos rfl, if_pos rfl, if_pos (by exact ⟨rfl, rfl⟩)]
    rw [hexVal_hexChar (by omega), hexVal_hexChar (by omega)]
    rw [show 16 * (c.toNat / 16) + c.toNat % 16 = c.toNat from by omega]
    rw [Char.ofNat_toNat]
  · have hch : escapeChar c = [c] := by
      unfold escapeChar
      rw [if_neg h1, if_neg h2, if_neg h3, if_neg h4, if_neg h5, if_neg h6,
        if_neg h7, if_neg h8]
    rw [hch, List.singleton_append]
    rw [unescapeStr.eq_def]
    dsimp only
    rw [if_neg h2]

theorem unescapeStr_escape (s : List Char) : unescapeStr (escapeStr s) = some s := by
  induction s with
  | nil => rfl
  | cons c cs ih =>
    rw [show escapeStr (c :: cs) = escapeChar c ++ escapeStr cs from rfl,
      unescapeStr_escapeChar, ih]
    rfl

theorem splitAtChar_append {c : Char} {xs : List Char} (h : c ∉ xs)
    (r : List Char) : splitAtChar c (xs ++ c :: r) = some (xs, r) := by
  induction xs with
  | nil => simp [splitAtChar]
  | cons x xs ih =>
    have hx : x ≠ c := fun hxc => h (hxc ▸ List.mem_cons_self x xs)
    have hxs : c ∉ xs := fun hm => h (List.mem_cons_of_mem x hm)
    rw [List.cons_append]
    simp only [splitAtChar, if_neg hx]
    rw [ih hxs]
    rfl

theorem comma_not_mem_intRepr (i : Int) : ',' ∉ intRepr i :=
  not_mem_intRepr_of_not_digit_ne_minus (by decide) (by decide) i

theorem rbrace_not_mem_intRepr (i : Int) : rbrace ∉ intRepr i :=
  not_mem_intRepr_of_not_digit_ne_minus (by decide) (by decide) i

theorem decodeCanonical_canonicalJson (m : BackupMetadata) :
    decodeCanonical (canonicalJsonChars m)
      = some (m.backup_version.val, m.device_id.chars, m.device_name.chars,
          m.kdf_nonce, m.timestamp) := by
  obtain ⟨sch, ver, ts, dev, nam, os, non⟩ := m
  cases sch
  cases os
  have hform : canonicalJsonChars ⟨.V1, ver, ts, dev, nam, .Ios, non⟩
      = cjHdr1 ++ (intRepr ver.val ++ ',' :: (cjHdr2 ++ (escapeStr dev.chars
        ++ '"' :: (cjHdr3 ++ (escapeStr nam.chars ++ '"' :: (cjHdr4
        ++ (escapeStr non ++ '"' :: (cjHdr5 ++ (intRepr ts
        ++ rbrace :: ([] : List Char)))))))))) := by
    simp [canonicalJsonChars, cjHdr1, cjHdr2, cjHdr3, cjHdr4, cjHdr5,
      jsonKey, jsonStr, List.append_assoc]
  rw [hform]
  simp only [decodeCanonical, dropLit_append,
    splitAtChar_append (comma_not_mem_intRepr ver.val),
    splitAtChar_append (rbrace_not_mem_intRepr ts),
    takeEscaped_escape, unescapeStr_escape, intReprRead_intRepr]

/-- C2: two `BackupMetadata` values have byte-identical `canonical_json`
output exactly when they are field-wise equal; in particular a difference
in any single field changes the canonical output. -/
theorem canonical_json_byte_identical_iff (a b : BackupMetadata) :
    BackupMetadata.canonical_json a = BackupMetadata.canonical_json b
      ↔ (a.backup_scheme = b.backup_scheme
        ∧ a.backup_version = b.backup_version
        ∧ a.timestamp = b.timestamp
        ∧ a.device_id = b.device_id
        ∧ a.device_name = b.device_name
        ∧ a.operating_system = b.operating_system
        ∧ a.kdf_nonce = b.kdf_nonce) := by
  constructor
  · intro h
    have hc : canonicalJsonChars a = canonicalJsonChars b := by
      simpa [BackupMetadata.canonical_json] using h
    have hd := congrArg decodeCanonical hc
    rw [decodeCanonical_canonicalJson, decodeCanonical_canonicalJson] at hd
    simp only [Option.some.injEq, Prod.mk.injEq] at hd
    obtain ⟨h1, h2, h3, h4, h5⟩ := hd
    obtain ⟨sa, va, ta, da, na, oa, ka⟩ := a
    obtain ⟨sb, vb, tb, db, nb, ob, kb⟩ := b
    cases sa
    cases sb
    cases oa
    cases ob
    cases va
    cases vb
    cases da
    cases db
    cases na
    cases nb
    simp_all
  · intro h
    obtain ⟨h1, h2, h3, h4, h5, h6, h7⟩ := h
    have hab : a = b := by
      obtain ⟨sa, va, ta, da, na, oa, ka⟩ := a
      obtain ⟨sb, vb, tb, db, nb, ob, kb⟩ := b
      simp_all
    rw [hab]

/-! ## Theorems: idempotent entity creation (claim C7) -/

/-- C7 counterexample: repeating `AccountPictureEntity::create` with
identical input does not converge to a single row — the second call fails
with a duplicate-key error, because its insert (unlike the dapp path) has
no `on_conflict_do_nothing`. -/
theorem account_picture_repeat_insert_fails :
    AccountPictureEntity.create ⟨['h']⟩ (['i']) none (['t']) []
      = .ok (⟨.AccountPicture, [['h']]⟩,
          [⟨⟨.AccountPicture, [['h']]⟩, ['h'], ['i'], none, ['t']⟩])
    ∧ AccountPictureEntity.create ⟨['h']⟩ (['i']) none (['t'])
        [⟨⟨.AccountPicture, [['h']]⟩, ['h'], ['i'], none, ['t']⟩]
      = .error
          (.Fatal "UNIQUE constraint failed: profile_pictures.deterministic_id") := by
  constructor
  · rfl
  · rfl

/-- C7 amended: repeated `Dapp::create_if_not_exists` calls with the same
natural key return the same deterministic id and converge without error to
exactly one stored row for that id (the insert ignores conflicts); the
`AccountPictureEntity::create` insert path, by contrast, returns the same
deterministic id but performs a plain insert, so a second call with
identical input surfaces a duplicate-key error instead of converging. -/
theorem entity_creation_idempotency (e : DappEntity) (ca ca2 : List Char)
    (db : List DappRow) (ae : AccountPictureEntity) (img : List Char)
    (imn : Option (List Char)) (act : List Char)
    (adb : List AccountPictureRow)
    (hfresh : db.any
      (fun row => decide (row.deterministic_id = e.deterministicId)) = false) :
    (e.create_if_not_exists ca db).1 = e.deterministicId
    ∧ (e.create_if_not_exists ca2 (e.create_if_not_exists ca db).2).1
        = (e.create_if_not_exists ca db).1
    ∧ (e.create_if_not_exists ca2 (e.create_if_not_exists ca db).2).2
        = (e.create_if_not_exists ca db).2
    ∧ ((e.create_if_not_exists ca db).2.filter
        (fun row => decide (row.deterministic_id = e.deterministicId))).length
        = 1
    ∧ (∀ id1 adb1, ae.create img imn act adb = .ok (id1, adb1) →
        id1 = ae.deterministicId
        ∧ ∃ msg, ae.create img imn act adb1 = .error (.Fatal msg)) := by
  have h1 : e.create_if_not_exists ca db
      = (e.deterministicId, db
          ++ [⟨e.deterministicId, e.identifier, e.url, ca⟩]) := by
    unfold DappEntity.create_if_not_exists
    dsimp only
    rw [hfresh]
    rfl
  have hrow : (fun row => decide
      (row.deterministic_id = e.deterministicId))
      (⟨e.deterministicId, e.identifier, e.url, ca⟩ : DappRow) = true := by
    simp
  have hany : (db ++ [(⟨e.deterministicId, e.identifier, e.url, ca⟩ : DappRow)]).any
      (fun row => decide (row.deterministic_id = e.deterministicId)) = true := by
    rw [List.any_eq_true]
    refine ⟨(⟨e.deterministicId, e.identifier, e.url, ca⟩ : DappRow), ?_, ?_⟩
    · exact List.mem_append_right db (by simp)
    · simp
  have h2 : e.create_if_not_exists ca2
      (db ++ [(⟨e.deterministicId, e.identifier, e.url, ca⟩ : DappRow)])
      = (e.deterministicId, db
          ++ [(⟨e.deterministicId, e.identifier, e.url, ca⟩ : DappRow)]) := by
    unfold DappEntity.create_if_not_exists
    dsimp only
    rw [hany]
    rfl
  have hfilter : ((db
      ++ [(⟨e.deterministicId, e.identifier, e.url, ca⟩ : DappRow)]).filter
      (fun row => decide (row.deterministic_id = e.deterministicId))).length
      = 1 := by
    rw [List.filter_append]
    have hnil : db.filter (fun row => decide
        (row.deterministic_id = e.deterministicId)) = [] := by
      rw [List.filter_eq_nil_iff]
      intro a ha hpa
      have hcontra : db.any (fun row => decide
          (row.deterministic_id = e.deterministicId)) = true :=
        List.any_eq_true.mpr ⟨a, ha, hpa⟩
      rw [hfresh] at hcontra
      exact Bool.noConfusion hcontra
    rw [hnil]
    simp
  refine ⟨by rw [h1], by rw [h1, h2], by rw [h1, h2], by rw [h1]; exact hfilter,
    ?_⟩
  intro id1 adb1 hcreate
  unfold AccountPictureEntity.create at hcreate
  dsimp only at hcreate
  by_cases hdup : adb.any (fun row => decide
      (row.deterministic_id = ae.deterministicId)) = true
  · rw [hdup] at hcreate
    exact Except.noConfusion hcreate
  · rw [Bool.of_not_eq_true hdup] at hcreate
    have hpair := Except.ok.inj hcreate
    rw [Prod.mk.injEq] at hpair
    obtain ⟨hA, hB⟩ := hpair
    refine ⟨hA.symm,
      "UNIQUE constraint failed: profile_pictures.deterministic_id", ?_⟩
    unfold AccountPictureEntity.create
    dsimp only
    have hany2 : adb1.any (fun row => decide
        (row.deterministic_id = ae.deterministicId)) = true := by
      rw [← hB, List.any_eq_true]
      refine ⟨(⟨ae.deterministicId, ae.image_hash, img, imn, act⟩
        : AccountPictureRow), ?_, ?_⟩
      · exact List.mem_append_right adb (by simp)
      · simp
    rw [hany2]
    rfl

/-- Witness for `entity_creation_idempotency`: evaluation on empty tables
with a concrete dapp and account picture. -/
theorem entity_creation_idempotency_witness :
    ([] : List DappRow).any (fun row => decide
      (row.deterministic_id
        = (DappEntity.mk (['x']) (['u'])).deterministicId)) = false
    ∧ ((DappEntity.mk (['x']) (['u'])).create_if_not_exists (['t']) []).1
      = (DappEntity.mk (['x']) (['u'])).deterministicId := by
  refine ⟨by decide, ?_⟩
  exact (entity_creation_idempotency (DappEntity.mk (['x']) (['u'])) (['t'])
    (['t']) [] ⟨['h']⟩ (['i']) none (['t']) [] (by decide)).1

end SealVault
